import Mathlib

/-!
# Verification of the status-page tracker's polling / change-detection engine

A shallow embedding of `status_tracker.py` (the OpenAI Status Page Tracker):
the feed-entry parsing helpers, the change-detection loop
`StatusPageMonitor._process_entries`, the conditional-fetch cycle
`StatusPageMonitor._check_feed`, and the polling loop driven by
`StatusPageMonitor.start`.

Modelling conventions:
* Python `dict[str, str]` (insertion-ordered, in-place value update on an
  existing key) is modelled by `Dict := List (String × String)` with
  `dictInsert` / `dictGet` reproducing dict assignment and `dict.get`.
* `datetime` values are modelled by their UTC epoch seconds (`Nat`):
  `timegm` plus `datetime.fromtimestamp(.., tz=utc)` lands on epoch seconds,
  and `datetime.isoformat()` is injective on UTC datetimes, so the
  `updated_key` string is modelled by `toString` of the epoch value.
  `datetime.now(tz=utc)` — a wall-clock read — is modelled by an explicit
  `now : Nat` argument.
* A `feedparser` entry is modelled by `FPEntry`: the fields `parse_incident`
  and its helpers actually read (`entry.get` on a missing key yielding the
  default is an `Option`; an absent attribute or an empty `content` list is
  `none`).
* `feedparser.parse` itself is an external library; its output is modelled
  directly as the `Feed` record (`bozo` flag plus entry list) carried by a
  successful HTTP response.
* Exceptions raised by the notification callback propagate out of
  `_process_entries`; this is modelled by the `Except` result, whose
  `error` side carries the notifications that had completed before the
  raise (the local `new_seen` dict is discarded, as in the source).
* Python's `html.parser.HTMLParser` is modelled for markup without
  character references or comment/declaration syntax: `handle_data`
  receives exactly the text outside `<...>` tags.
-/

/-- Python `dict[str, str]` as an insertion-ordered association list. -/
abbrev Dict : Type := List (String × String)

/-- `d[k] = v`: update the value in place if `k` is present, else append. -/
def dictInsert : Dict → String → String → Dict
  | [], k, v => [(k, v)]
  | (k', v') :: rest, k, v =>
    if k' == k then (k', v) :: rest else (k', v') :: dictInsert rest k v

/-- `d.get(k)`: first (and in a real dict, only) binding of `k`. -/
def dictGet : Dict → String → Option String
  | [], _ => none
  | (k', v') :: rest, k => if k' == k then some v' else dictGet rest k

/-- Character stream of `_HTMLStripper`: collect the data outside tags. -/
def stripTagsGo : List Char → Bool → List Char
  | [], _ => []
  | c :: cs, inTag =>
    if inTag then
      if c == '>' then stripTagsGo cs false else stripTagsGo cs true
    else
      if c == '<' then stripTagsGo cs true else c :: stripTagsGo cs false

/-- `strip_html`: feed through `_HTMLStripper`, join, and `.strip()`. -/
def strip_html (s : String) : String :=
  (String.mk (stripTagsGo s.data false)).trim

/-- Helper for Python's `sub in s` substring test. -/
def containsSubAux (sub : List Char) : List Char → Bool
  | [] => sub.isPrefixOf []
  | c :: cs => sub.isPrefixOf (c :: cs) || containsSubAux sub cs

/-- Python's `sub in s` on strings. -/
def containsSub (s sub : String) : Bool :=
  containsSubAux sub.data s.data

/-- Python's `s.strip(chars)`: drop the given characters from both ends. -/
def stripEnds (s : String) (cs : List Char) : String :=
  String.mk
    (((s.data.dropWhile (fun c => cs.contains c)).reverse.dropWhile
        (fun c => cs.contains c)).reverse)

/-- One element of `entry.tags`: `tag.get("term","")` / `tag.get("label","")`. -/
structure FPTag where
  term : String
  label : String
deriving DecidableEq, Repr

/-- A `feedparser` entry, restricted to the fields the tracker reads.
`content` is the value of `entry.content[0]` when the attribute exists and
the list is non-empty; `updated_parsed` / `published_parsed` are the epoch
seconds `timegm` would produce from the `struct_time`. -/
structure FPEntry where
  id : Option String
  title : Option String
  link : Option String
  tags : List FPTag
  content : Option String
  summary : Option String
  updated_parsed : Option Nat
  published_parsed : Option Nat
deriving DecidableEq, Repr

/-- The `IncidentUpdate` record (`updated_at` as UTC epoch seconds). -/
structure IncidentUpdate where
  id : String
  title : String
  link : String
  status : String
  affected_components : List String
  latest_message : String
  updated_at : Nat
deriving DecidableEq, Repr

/-- `raw` selection shared by the parse helpers: prefer `entry.content[0].value`,
else `entry.summary or ""`, else `""`. -/
def rawContent (e : FPEntry) : String :=
  match e.content with
  | some v => v
  | none =>
    match e.summary with
    | some s => s
    | none => ""

/-- `_parse_components`. -/
def parseComponents (e : FPEntry) : List String :=
  let components := e.tags.filterMap (fun t => if t.term != "" then some t.term else none)
  if components.isEmpty then
    let text := strip_html (rawContent e)
    (text.splitOn "\n").filterMap (fun line =>
      let line := (stripEnds line ['-', ' ']).trim
      if line.contains '(' && line.contains ')' then some line else none)
  else components

/-- The recognised status labels of `_parse_status`. -/
def statusLabels : List String :=
  ["investigating", "identified", "monitoring", "resolved",
   "degraded performance", "partial outage", "major outage"]

/-- `_parse_status`. -/
def parseStatus (e : FPEntry) : String :=
  match e.tags.findSome? (fun t =>
      if statusLabels.contains t.label.toLower then some t.label else none) with
  | some s => s
  | none =>
    let text := strip_html (rawContent e)
    let lower := text.toLower
    if containsSub lower "resolved" || containsSub lower "fully recovered" then "Resolved"
    else if containsSub lower "monitoring" then "Monitoring"
    else if containsSub lower "identified" then "Identified"
    else if containsSub lower "investigating" then "Investigating"
    else if containsSub lower "degraded" then "Degraded Performance"
    else "Unknown"

/-- `_parse_latest_message`. -/
def parseLatestMessage (e : FPEntry) : String :=
  let text := strip_html (rawContent e)
  match (text.splitOn "\n").findSome? (fun line =>
      let line := line.trim
      if line != "" && !(line.contains '(') then some line else none) with
  | some line => line
  | none => if text != "" then text.take 200 else "(no message)"

/-- `_parse_timestamp`: `updated_parsed or published_parsed`, falling back to
`datetime.now(tz=utc)` — the wall-clock read modelled by `now`. -/
def parseTimestamp (e : FPEntry) (now : Nat) : Nat :=
  match e.updated_parsed with
  | some t => t
  | none =>
    match e.published_parsed with
    | some t => t
    | none => now

/-- `parse_incident`: convert a feed entry into an `IncidentUpdate`. -/
def parse_incident (e : FPEntry) (now : Nat) : IncidentUpdate :=
  { id := e.id.getD (e.link.getD "")
    title := e.title.getD "Unknown Incident"
    link := e.link.getD ""
    status := parseStatus e
    affected_components := parseComponents e
    latest_message := parseLatestMessage e
    updated_at := parseTimestamp e now }

/-- The normalizer over a whole payload: `parse_incident` on each entry,
in feed order (the per-cycle wall clock `now` passed through). -/
def normalizeEntries (entries : List FPEntry) (now : Nat) : List IncidentUpdate :=
  entries.map (fun e => parse_incident e now)

/-- A callback that never raises (the default console printer is assumed
total; `cbFails` picks out the incidents on which the callback raises). -/
def noFail : IncidentUpdate → Bool := fun _ => false

/-- The loop body of `StatusPageMonitor._process_entries`, one entry at a
time.  `seen` is `self._seen_incidents` (read-only during the loop),
`newSeen` the local `new_seen` dict being built.  A raising callback
aborts the loop: the `error` side carries the notifications completed
before the raise and the partially built `new_seen` is discarded. -/
def processEntriesAux (seen : Dict) (cbFails : IncidentUpdate → Bool) (now : Nat)
    (initial : Bool) :
    List FPEntry → Dict → Except (List IncidentUpdate) (Dict × List IncidentUpdate)
  | [], newSeen => .ok (newSeen, [])
  | e :: rest, newSeen =>
    let incident := parse_incident e now
    let updatedKey := toString incident.updated_at
    let ns := dictInsert newSeen incident.id updatedKey
    let fire : Bool :=
      if initial then true
      else
        match dictGet seen incident.id with
        | none => true
        | some prev => prev != updatedKey
    if fire then
      if cbFails incident then .error []
      else
        match processEntriesAux seen cbFails now initial rest ns with
        | .ok (finalSeen, notifs) => .ok (finalSeen, incident :: notifs)
        | .error notifs => .error (incident :: notifs)
    else processEntriesAux seen cbFails now initial rest ns

/-- `StatusPageMonitor._process_entries`: on `ok` the first component is the
dict assigned to `self._seen_incidents` at the end, the second the incidents
passed to the callback, in order; on `error` the callback raised and the
assignment never ran. -/
def processEntries (seen : Dict) (entries : List FPEntry) (initial : Bool)
    (cbFails : IncidentUpdate → Bool) (now : Nat) :
    Except (List IncidentUpdate) (Dict × List IncidentUpdate) :=
  processEntriesAux seen cbFails now initial entries []

/-- The output of `feedparser.parse` as `_check_feed` consumes it. -/
structure Feed where
  bozo : Bool
  entries : List FPEntry
deriving DecidableEq, Repr

/-- One poll's HTTP interaction, as seen from inside `_check_feed`'s `try`
block: either `session.get` itself raises (`netError`), or a response
arrives with a status, optional `ETag` / `Last-Modified` headers, and a
body read that either succeeds (already parsed, since `feedparser.parse`
is total) or raises mid-read (`body = none`, caught by the same handler). -/
inductive FetchResult where
  | netError : FetchResult
  | response (status : Nat) (etag lastModified : Option String)
      (body : Option Feed) : FetchResult
deriving DecidableEq, Repr

/-- The mutable per-monitor state: `self._etag`, `self._last_modified`,
`self._seen_incidents`. -/
structure MonitorState where
  etag : Option String
  lastModified : Option String
  seenIncidents : Dict
deriving DecidableEq, Repr

/-- State at construction time (`__init__`). -/
def initialMonitorState : MonitorState :=
  { etag := none, lastModified := none, seenIncidents := [] }

/-- `StatusPageMonitor._check_feed`, one cycle.  The `ok` side carries the
state after the cycle, the notifications fired, and — as a ghost
observation — `some initial` when `_process_entries` ran (with that flag)
and `none` when the cycle returned before reaching it.  The `error` side
is an uncaught callback exception propagating out of the method. -/
def checkFeed (st : MonitorState) (r : FetchResult) (initial : Bool)
    (cbFails : IncidentUpdate → Bool) (now : Nat) :
    Except (MonitorState × List IncidentUpdate)
      (MonitorState × List IncidentUpdate × Option Bool) :=
  match r with
  | .netError => .ok (st, [], none)
  | .response status etag lastModified body =>
    if status == 304 then .ok (st, [], none)
    else if status != 200 then .ok (st, [], none)
    else
      let st1 : MonitorState := { st with etag := etag, lastModified := lastModified }
      match body with
      | none => .ok (st1, [], none)
      | some feed =>
        if feed.bozo && feed.entries.isEmpty then .ok (st1, [], none)
        else
          match processEntries st1.seenIncidents feed.entries initial cbFails now with
          | .ok (newSeen, notifs) =>
            .ok ({ st1 with seenIncidents := newSeen }, notifs, some initial)
          | .error notifs => .error (st1, notifs)

/-- The environment's contribution to one poll cycle: the HTTP interaction,
which incidents the callback raises on this cycle, and the wall clock. -/
structure CycleInput where
  fetch : FetchResult
  cbFails : IncidentUpdate → Bool
  now : Nat

/-- Observable outcome of a run of the polling loop. -/
structure RunResult where
  state : MonitorState
  notifs : List IncidentUpdate
  flags : List (Option Bool)
  crashed : Bool

/-- The cycle sequence of `StatusPageMonitor.start`: the first
`_check_feed` call gets `initial=True`, every later one `initial=False`;
an uncaught exception terminates the loop, dropping the remaining cycles.
`flags` records, per executed cycle, the ghost diff-flag observation of
`checkFeed` (`some initial` when the diff ran). -/
def runCycles (st : MonitorState) (initial : Bool) : List CycleInput → RunResult
  | [] => { state := st, notifs := [], flags := [], crashed := false }
  | c :: rest =>
    match checkFeed st c.fetch initial c.cbFails c.now with
    | .ok (st', ns, flag) =>
      let r := runCycles st' false rest
      { state := r.state, notifs := ns ++ r.notifs, flags := flag :: r.flags,
        crashed := r.crashed }
    | .error (st', ns) =>
      { state := st', notifs := ns, flags := [some initial], crashed := true }

/-- A full run of `StatusPageMonitor.start` from the constructed state. -/
def runMonitor (inputs : List CycleInput) : RunResult :=
  runCycles initialMonitorState true inputs

/-- Spec §4.3 step 3: select an incident iff its identity is absent from
`previous`, or present with a stored updated-at differing (either
direction) from the newly computed key.  This is the source's prev-check,
factored out (the `match` is syntactically the one in the loop). -/
def shouldNotify (seen : Dict) (inc : IncidentUpdate) : Bool :=
  match dictGet seen inc.id with
  | none => true
  | some prev => prev != toString inc.updated_at

/-- One `new_seen[incident.id] = updated_key` assignment. -/
def snapshotStep (now : Nat) (d : Dict) (e : FPEntry) : Dict :=
  dictInsert d (parse_incident e now).id (toString (parse_incident e now).updated_at)

/-- Spec §4.3 step 1: the new SeenSnapshot, identity → updated-at key,
built over the current entries from an empty dict. -/
def specNewSnapshot (entries : List FPEntry) (now : Nat) : Dict :=
  entries.foldl (snapshotStep now) []

/-- Spec §4.3 steps 2–3 as a filter over the normalized sequence:
everything on an initial cycle, the `shouldNotify` selection otherwise. -/
def specNotifications (seen : Dict) (entries : List FPEntry) (b : Bool)
    (now : Nat) : List IncidentUpdate :=
  (normalizeEntries entries now).filter (fun inc => b || shouldNotify seen inc)

/-- Spec-side reading of the snapshot: the updated-at key of the LAST
occurrence of identity `k` in the current entries, `none` if absent. -/
def specLastKey (entries : List FPEntry) (now : Nat) (k : String) : Option String :=
  entries.reverse.findSome? (fun e =>
    if (parse_incident e now).id == k then
      some (toString (parse_incident e now).updated_at)
    else none)

/-- Project the monitor state out of a `_check_feed` outcome, whether the
cycle completed or a callback exception escaped. -/
def resultState (r : Except (MonitorState × List IncidentUpdate)
    (MonitorState × List IncidentUpdate × Option Bool)) : MonitorState :=
  match r with
  | .ok p => p.1
  | .error p => p.1

/-- Concrete fixture: incident `a` updated at 5. -/
def entryA : FPEntry :=
  { id := some "a", title := some "Incident A", link := none, tags := [],
    content := none, summary := none, updated_parsed := some 5,
    published_parsed := none }

/-- Concrete fixture: incident `a` updated at 7 (same identity as `entryA`). -/
def entryA7 : FPEntry :=
  { id := some "a", title := some "Incident A", link := none, tags := [],
    content := none, summary := none, updated_parsed := some 7,
    published_parsed := none }

/-- Concrete fixture: incident `b` updated at 9. -/
def entryB : FPEntry :=
  { id := some "b", title := some "Incident B", link := none, tags := [],
    content := none, summary := none, updated_parsed := some 9,
    published_parsed := none }

/-- Concrete fixture: incident `c` updated at 11. -/
def entryC : FPEntry :=
  { id := some "c", title := some "Incident C", link := none, tags := [],
    content := none, summary := none, updated_parsed := some 11,
    published_parsed := none }

/-- Concrete fixture: an entry carrying neither `updated_parsed` nor
`published_parsed`, so `_parse_timestamp` reads the wall clock. -/
def entryNoTime : FPEntry :=
  { id := some "n", title := some "Incident N", link := none, tags := [],
    content := none, summary := none, updated_parsed := none,
    published_parsed := none }

/-- A callback that raises exactly on incident identity `a`. -/
def cbFailsA : IncidentUpdate → Bool := fun inc => inc.id == "a"

/-- A monitor state mid-run: validators set, one seen incident. -/
def sampleState : MonitorState :=
  { etag := some "etag1", lastModified := some "lm1",
    seenIncidents := [("a", "1")] }

/-- Two cycles for the sink-failure scenario: the first response holds
incidents `a` and `b` and the callback raises on `a`; the second would
bring a further incident `c`. -/
def c5Inputs : List CycleInput :=
  [{ fetch := .response 200 (some "e1") none (some { bozo := false, entries := [entryA, entryB] }),
     cbFails := cbFailsA, now := 0 },
   { fetch := .response 200 (some "e2") none (some { bozo := false, entries := [entryA, entryB, entryC] }),
     cbFails := noFail, now := 1 }]

/-- Two cycles for the first-cycle-fails scenario: a network error, then a
successful fetch carrying incident `a`. -/
def c7Inputs : List CycleInput :=
  [{ fetch := .netError, cbFails := noFail, now := 0 },
   { fetch := .response 200 none none (some { bozo := false, entries := [entryA] }),
     cbFails := noFail, now := 1 }]

theorem dictGet_insert (d : Dict) (k v q : String) :
    dictGet (dictInsert d k v) q = if k == q then some v else dictGet d q := by
  induction d with
  | nil => simp [dictInsert, dictGet]
  | cons p rest ih =>
    obtain ⟨a, b⟩ := p
    by_cases hak : a = k
    · subst hak
      by_cases haq : a = q <;> simp [dictInsert, dictGet, haq]
    · by_cases haq : a = q
      · subst haq
        have : ¬ k = a := fun h => hak h.symm
        simp [dictInsert, dictGet, hak, this, ih]
      · simp [dictInsert, dictGet, hak, haq, ih]

theorem filterTrueEq {α : Type} (l : List α) : l.filter (fun _ => true) = l := by
  induction l <;> simp [List.filter, *]

theorem findSomeAppend {α β : Type} (l1 l2 : List α) (f : α → Option β) :
    (l1 ++ l2).findSome? f =
      match l1.findSome? f with
      | some v => some v
      | none => l2.findSome? f := by
  induction l1 with
  | nil => simp [List.findSome?]
  | cons a l1 ih =>
    simp only [List.cons_append, List.findSome?]
    cases f a <;> simp [ih]

/-- With a never-raising callback the loop is the spec's map/filter/fold. -/
theorem processEntriesAux_noFail (seen : Dict) (now : Nat) (b : Bool) :
    ∀ (entries : List FPEntry) (d0 : Dict),
    processEntriesAux seen noFail now b entries d0 =
      .ok (entries.foldl (snapshotStep now) d0,
           (normalizeEntries entries now).filter (fun inc => b || shouldNotify seen inc)) := by
  intro entries
  induction entries with
  | nil => intro d0; simp [processEntriesAux, normalizeEntries]
  | cons e rest ih =>
    intro d0
    cases b with
    | true =>
      simp [processEntriesAux, noFail, ih, normalizeEntries, snapshotStep,
        List.filter]
    | false =>
      cases hd : dictGet seen (parse_incident e now).id with
      | none =>
        simp [processEntriesAux, noFail, hd, ih, normalizeEntries, snapshotStep,
          shouldNotify, List.filter]
      | some prev =>
        cases hp : prev != toString (parse_incident e now).updated_at with
        | true =>
          simp [processEntriesAux, noFail, hd, hp, ih, normalizeEntries,
            snapshotStep, shouldNotify, List.filter]
        | false =>
          simp [processEntriesAux, noFail, hd, hp, ih, normalizeEntries,
            snapshotStep, shouldNotify, List.filter]

theorem findSomeNone {α β : Type} (l : List α) (f : α → Option β)
    (h : ∀ a ∈ l, f a = none) : l.findSome? f = none := by
  induction l with
  | nil => simp [List.findSome?]
  | cons a l ih =>
    have ha := h a (by simp)
    simp only [List.findSome?, ha]
    exact ih (fun x hx => h x (by simp [hx]))

/-- Lookup in the fold-built snapshot is last-write-wins over the entries,
falling back to the accumulator. -/
theorem dictGet_foldl (now : Nat) :
    ∀ (entries : List FPEntry) (d0 : Dict) (k : String),
    dictGet (entries.foldl (snapshotStep now) d0) k =
      match specLastKey entries now k with
      | some v => some v
      | none => dictGet d0 k := by
  intro entries
  induction entries with
  | nil => intro d0 k; simp [specLastKey, List.findSome?]
  | cons e rest ih =>
    intro d0 k
    simp only [List.foldl]
    rw [ih]
    have h1 : specLastKey (e :: rest) now k =
        match specLastKey rest now k with
        | some v => some v
        | none =>
          if (parse_incident e now).id == k then
            some (toString (parse_incident e now).updated_at)
          else none := by
      simp only [specLastKey, List.reverse_cons]
      rw [findSomeAppend]
      cases rest.reverse.findSome? (fun e =>
        if (parse_incident e now).id == k then
          some (toString (parse_incident e now).updated_at)
        else none) with
      | some v => simp
      | none =>
        by_cases hik : (parse_incident e now).id = k <;> simp [List.findSome?, hik]
    rw [h1]
    cases hl : specLastKey rest now k with
    | some v => simp
    | none =>
      simp only [snapshotStep, dictGet_insert]
      by_cases hik : (parse_incident e now).id = k <;> simp [hik]

/-- The snapshot built from the current entries maps each identity to the
key of its last occurrence, and nothing else. -/
theorem dictGet_specNewSnapshot (entries : List FPEntry) (now : Nat) (k : String) :
    dictGet (specNewSnapshot entries now) k = specLastKey entries now k := by
  simp only [specNewSnapshot]
  rw [dictGet_foldl]
  cases specLastKey entries now k <;> simp [dictGet]

theorem specLastKey_none (entries : List FPEntry) (now : Nat) (k : String)
    (h : ∀ e1 ∈ entries, (parse_incident e1 now).id ≠ k) :
    specLastKey entries now k = none := by
  simp only [specLastKey]
  refine findSomeNone _ _ (fun a ha => ?_)
  have := h a (List.mem_reverse.mp ha)
  simp [this]

/-- C1: on a non-initial cycle an incident is notified iff its identity is
absent from the previous snapshot or the stored updated-at key differs (in
either direction) from the newly computed one; the notifications come in
feed order. -/
theorem select_iff_new_or_changed (seen : Dict) (entries : List FPEntry) (now : Nat) :
    processEntries seen entries false noFail now =
      .ok (specNewSnapshot entries now,
           (normalizeEntries entries now).filter (fun inc => shouldNotify seen inc)) := by
  simp only [processEntries, specNewSnapshot]
  rw [processEntriesAux_noFail]
  simp

/-- C2: on an initial cycle every current incident is notified exactly
once, in feed order, whatever the previous snapshot contains. -/
theorem initial_cycle_notifies_all (seen : Dict) (entries : List FPEntry) (now : Nat) :
    processEntries seen entries true noFail now =
      .ok (specNewSnapshot entries now, normalizeEntries entries now) := by
  simp only [processEntries, specNewSnapshot]
  rw [processEntriesAux_noFail]
  simp [filterTrueEq]

/-- C3: the returned snapshot maps exactly the identities occurring in the
current entries to their updated-at keys, the last occurrence winning on a
duplicate; identities only in the previous snapshot are dropped, and every
notification comes from a current entry. -/
theorem snapshot_last_write_wins (seen : Dict) (entries : List FPEntry)
    (b : Bool) (now : Nat) :
    processEntries seen entries b noFail now =
      .ok (specNewSnapshot entries now, specNotifications seen entries b now)
    ∧ (∀ k, dictGet (specNewSnapshot entries now) k = specLastKey entries now k)
    ∧ (∀ inc, inc ∈ specNotifications seen entries b now →
        ∃ e, e ∈ entries ∧ inc = parse_incident e now) := by
  refine ⟨?_, ?_, ?_⟩
  · simp only [processEntries, specNewSnapshot, specNotifications]
    rw [processEntriesAux_noFail]
  · intro k
    exact dictGet_specNewSnapshot entries now k
  · intro inc hmem
    simp only [specNotifications, normalizeEntries] at hmem
    obtain ⟨hm, _⟩ := List.mem_filter.mp hmem
    obtain ⟨e, he, heq⟩ := List.mem_map.mp hm
    exact ⟨e, he, heq.symm⟩

/-- C10: an identity absent from one successful non-initial cycle is
dropped from the snapshot; a later non-initial cycle that carries it again
— even with exactly the updated-at value stored before it disappeared —
notifies it as new; and a successful cycle with zero entries empties the
snapshot and notifies nothing. -/
theorem absent_identity_forgotten_and_renotified (seen : Dict)
    (entries1 : List FPEntry) (e : FPEntry) (now1 now2 : Nat)
    (hseen : dictGet seen (parse_incident e now2).id =
      some (toString (parse_incident e now2).updated_at))
    (habs : ∀ e1 ∈ entries1, (parse_incident e1 now1).id ≠ (parse_incident e now2).id) :
    (∃ l1, processEntries seen entries1 false noFail now1 =
        .ok (specNewSnapshot entries1 now1, l1))
    ∧ dictGet (specNewSnapshot entries1 now1) (parse_incident e now2).id = none
    ∧ processEntries (specNewSnapshot entries1 now1) [e] false noFail now2 =
        .ok ([((parse_incident e now2).id, toString (parse_incident e now2).updated_at)],
             [parse_incident e now2])
    ∧ processEntries seen [] false noFail now1 = .ok ([], []) := by
  have hforget : dictGet (specNewSnapshot entries1 now1) (parse_incident e now2).id = none := by
    rw [dictGet_specNewSnapshot]
    exact specLastKey_none entries1 now1 _ habs
  refine ⟨⟨specNotifications seen entries1 false now1, ?_⟩, hforget, ?_, rfl⟩
  · simp only [processEntries, specNewSnapshot, specNotifications]
    rw [processEntriesAux_noFail]
  · simp only [processEntries]
    rw [processEntriesAux_noFail]
    simp [normalizeEntries, shouldNotify, hforget, snapshotStep, dictInsert,
      List.filter]

/-- If the callback raises on the first fired incident after a prefix on
which it never raises, the loop stops there: the error carries exactly the
prefix's selected notifications, and nothing after the raising entry runs. -/
theorem processEntriesAux_error (seen : Dict) (cbF : IncidentUpdate → Bool)
    (now : Nat) (b : Bool) :
    ∀ (pre : List FPEntry) (d0 : Dict) (e : FPEntry) (post : List FPEntry),
    (∀ e1 ∈ pre, cbF (parse_incident e1 now) = false) →
    (b || shouldNotify seen (parse_incident e now)) = true →
    cbF (parse_incident e now) = true →
    processEntriesAux seen cbF now b (pre ++ e :: post) d0 =
      .error ((normalizeEntries pre now).filter
        (fun inc => b || shouldNotify seen inc)) := by
  intro pre
  induction pre with
  | nil =>
    intro d0 e post _ hfire hfail
    cases b with
    | true => simp [processEntriesAux, hfail, normalizeEntries]
    | false =>
      simp only [Bool.false_or, shouldNotify] at hfire
      cases hd : dictGet seen (parse_incident e now).id with
      | none => simp [processEntriesAux, hd, hfail, normalizeEntries]
      | some prev =>
        rw [hd] at hfire
        have hp : (prev != toString (parse_incident e now).updated_at) = true := by
          simpa using hfire
        simp [processEntriesAux, hd, hp, hfail, normalizeEntries]
  | cons e1 pre ih =>
    intro d0 e post hpre hfire hfail
    have h1 : cbF (parse_incident e1 now) = false := hpre e1 (by simp)
    have hrest : ∀ x ∈ pre, cbF (parse_incident x now) = false :=
      fun x hx => hpre x (by simp [hx])
    have ihr := ih (dictInsert d0 (parse_incident e1 now).id
        (toString (parse_incident e1 now).updated_at)) e post hrest hfire hfail
    cases b with
    | true =>
      simp [processEntriesAux, h1, ihr, normalizeEntries, List.filter]
    | false =>
      cases hd : dictGet seen (parse_incident e1 now).id with
      | none =>
        simp [processEntriesAux, h1, hd, ihr, normalizeEntries, shouldNotify,
          List.filter]
      | some prev =>
        cases hp : prev != toString (parse_incident e1 now).updated_at with
        | true =>
          simp [processEntriesAux, h1, hd, hp, ihr, normalizeEntries,
            shouldNotify, List.filter]
        | false =>
          simp [processEntriesAux, h1, hd, hp, ihr, normalizeEntries,
            shouldNotify, List.filter]

/-- Against an empty snapshot every current incident is selected, initial
cycle or not: each lookup misses, so each entry is new. -/
theorem processEntries_empty_seen (entries : List FPEntry) (now : Nat) (b : Bool) :
    processEntries [] entries b noFail now =
      .ok (specNewSnapshot entries now, normalizeEntries entries now) := by
  simp only [processEntries, specNewSnapshot]
  rw [processEntriesAux_noFail]
  simp [shouldNotify, dictGet, filterTrueEq]

/-- A cycle whose ghost diff-flag is `none` never touched the seen
snapshot and fired no notification. -/
theorem checkFeed_no_diff_preserves_seen (st : MonitorState) (r : FetchResult)
    (b : Bool) (cb : IncidentUpdate → Bool) (now : Nat) (st2 : MonitorState)
    (ns : List IncidentUpdate)
    (h : checkFeed st r b cb now = .ok (st2, ns, none)) :
    st2.seenIncidents = st.seenIncidents ∧ ns = [] := by
  cases r with
  | netError =>
    simp only [checkFeed, Except.ok.injEq, Prod.mk.injEq] at h
    obtain ⟨h1, h2, -⟩ := h
    exact ⟨by rw [← h1], h2.symm⟩
  | response s et lm body =>
    simp only [checkFeed] at h
    split at h
    · simp only [Except.ok.injEq, Prod.mk.injEq] at h
      obtain ⟨h1, h2, -⟩ := h
      exact ⟨by rw [← h1], h2.symm⟩
    · split at h
      · simp only [Except.ok.injEq, Prod.mk.injEq] at h
        obtain ⟨h1, h2, -⟩ := h
        exact ⟨by rw [← h1], h2.symm⟩
      · split at h
        · simp only [Except.ok.injEq, Prod.mk.injEq] at h
          obtain ⟨h1, h2, -⟩ := h
          exact ⟨by rw [← h1], h2.symm⟩
        · split at h
          · simp only [Except.ok.injEq, Prod.mk.injEq] at h
            obtain ⟨h1, h2, -⟩ := h
            exact ⟨by rw [← h1], h2.symm⟩
          · split at h
            · simp only [Except.ok.injEq, Prod.mk.injEq] at h
              exact absurd h.2.2 (by simp)
            · simp at h

/-- C5 (amended): an error raised by the notification callback propagates
uncaught.  Within the cycle it aborts the loop at the raising incident —
the error result carries only the notifications of the preceding selected
incidents, later selected incidents are not notified and the SeenSnapshot
is not replaced — and at the loop level an escaped callback exception
terminates the Monitor, dropping all remaining cycles. -/
theorem callback_error_aborts_cycle (seen : Dict) (cbF : IncidentUpdate → Bool)
    (now : Nat) (b : Bool) (pre : List FPEntry) (e : FPEntry)
    (post : List FPEntry)
    (hpre : ∀ e1 ∈ pre, cbF (parse_incident e1 now) = false)
    (hfire : (b || shouldNotify seen (parse_incident e now)) = true)
    (hfail : cbF (parse_incident e now) = true) :
    processEntries seen (pre ++ e :: post) b cbF now =
      .error ((normalizeEntries pre now).filter
        (fun inc => b || shouldNotify seen inc))
    ∧ ∀ (st st2 : MonitorState) (c : CycleInput) (rest : List CycleInput)
        (ns : List IncidentUpdate) (b2 : Bool),
        checkFeed st c.fetch b2 c.cbFails c.now = .error (st2, ns) →
        runCycles st b2 (c :: rest) =
          { state := st2, notifs := ns, flags := [some b2], crashed := true } := by
  constructor
  · simp only [processEntries]
    exact processEntriesAux_error seen cbF now b pre [] e post hpre hfire hfail
  · intro st st2 c rest ns b2 hcf
    simp [runCycles, hcf]

/-- C5 counterexample: with the callback raising on incident `a`, the first
cycle of `c5Inputs` notifies nothing at all — incident `b`, selected in the
same cycle, is skipped — the snapshot is never replaced, and the monitor
crashes so the second cycle (carrying incident `c`) never runs. -/
theorem callback_error_crashes_monitor :
    (runMonitor c5Inputs).notifs = []
    ∧ (runMonitor c5Inputs).crashed = true
    ∧ (runMonitor c5Inputs).state.seenIncidents = []
    ∧ (runMonitor c5Inputs).flags = [some true] := by
  refine ⟨?_, ?_, ?_, ?_⟩ <;> rfl

/-- Witness for `callback_error_aborts_cycle` at a concrete input. -/
theorem callback_error_aborts_cycle_witness :
    processEntries [] ([entryB] ++ entryA :: [entryC]) false cbFailsA 0 =
      .error ((normalizeEntries [entryB] 0).filter
        (fun inc => false || shouldNotify [] inc)) :=
  (callback_error_aborts_cycle [] cbFailsA 0 false [entryB] entryA [entryC]
    (by decide) (by decide) (by decide)).1

/-- C4 (amended): a network error raised by the GET itself, a 304, or any
status other than 200 leaves the whole monitor state untouched and emits
nothing, without invoking the normalizer; but a network error or timeout
raised during the body read of a 200 response occurs after the validators
have already been replaced, so on that transient failure the
CacheValidators do change while the SeenSnapshot stays untouched and no
notification is emitted. -/
theorem transient_failure_frame (st : MonitorState) (b : Bool)
    (cb : IncidentUpdate → Bool) (now : Nat) :
    checkFeed st .netError b cb now = .ok (st, [], none)
    ∧ (∀ (s : Nat) (et lm : Option String) (body : Option Feed),
        s ≠ 200 → s ≠ 304 →
        checkFeed st (.response s et lm body) b cb now = .ok (st, [], none))
    ∧ (∀ (et lm : Option String) (body : Option Feed),
        checkFeed st (.response 304 et lm body) b cb now = .ok (st, [], none))
    ∧ (∀ (et lm : Option String),
        checkFeed st (.response 200 et lm none) b cb now =
          .ok ({ st with etag := et, lastModified := lm }, [], none)) := by
  refine ⟨rfl, ?_, ?_, ?_⟩
  · intro s et lm body h200 h304
    simp [checkFeed, h200, h304]
  · intro et lm body
    rfl
  · intro et lm
    rfl

/-- C4 counterexample: a body-read failure on a 200 response (a timeout or
connection drop during `resp.text()`) is a transient failure on which the
CacheValidators are nevertheless replaced: the stored entity tag changes
from `etag1` to `etag2` and the stored last-modified token is cleared. -/
theorem validators_advance_on_body_failure :
    checkFeed sampleState (.response 200 (some "etag2") none none) false noFail 0 =
      .ok ({ etag := some "etag2", lastModified := none,
             seenIncidents := [("a", "1")] }, [], none)
    ∧ (some "etag2" : Option String) ≠ sampleState.etag
    ∧ (none : Option String) ≠ sampleState.lastModified := by
  exact ⟨rfl, by decide, by decide⟩

/-- Witness for `transient_failure_frame` at a concrete input. -/
theorem transient_failure_frame_witness :
    checkFeed sampleState (.response 500 (some "x") none none) false noFail 0 =
      .ok (sampleState, [], none) :=
  (transient_failure_frame sampleState false noFail 0).2.1 500 (some "x") none
    none (by decide) (by decide)

/-- C8: a successfully fetched but malformed payload with zero recoverable
entries makes the cycle a change-detection no-op: the previous SeenSnapshot
is retained, nothing is notified, and no exception escapes (the cycle
returns normally, so the monitor keeps polling). -/
theorem malformed_zero_entries_noop (st : MonitorState) (et lm : Option String)
    (b : Bool) (cb : IncidentUpdate → Bool) (now : Nat) :
    checkFeed st (.response 200 et lm (some { bozo := true, entries := [] })) b cb now =
      .ok ({ st with etag := et, lastModified := lm }, [], none)
    ∧ ({ st with etag := et, lastModified := lm } : MonitorState).seenIncidents
        = st.seenIncidents := by
  exact ⟨rfl, rfl⟩

/-- C9: every 200 response replaces both cache validators wholesale with
the response's own tokens — whatever the body holds (normal, malformed,
zero changes, or a body-read failure) and even when the callback raises —
and a token the server omitted becomes absent rather than inherited. -/
theorem validators_replaced_on_success (st : MonitorState) (et lm : Option String)
    (body : Option Feed) (b : Bool) (cb : IncidentUpdate → Bool) (now : Nat) :
    (resultState (checkFeed st (.response 200 et lm body) b cb now)).etag = et
    ∧ (resultState (checkFeed st (.response 200 et lm body) b cb now)).lastModified
        = lm := by
  cases body with
  | none => exact ⟨rfl, rfl⟩
  | some feed =>
    simp only [checkFeed]
    by_cases hb : (feed.bozo && feed.entries.isEmpty) = true
    · simp [hb, resultState]
    · simp only [hb, if_false]
      cases hr : processEntries ({ st with etag := et, lastModified := lm } :
          MonitorState).seenIncidents feed.entries b cb now with
      | ok p =>
        obtain ⟨nsn, notifs⟩ := p
        simp [hr, resultState]
      | error notifs =>
        simp [hr, resultState]

/-- C6 (amended): normalization is deterministic — same sequence, same
order, equal timestamps — for any payload in which every entry carries an
`updated_parsed` or ` published_parsed` value; an entry carrying neither is
stamped with the wall clock at parse time, so two runs of normalize over
such a payload can differ in that entry's updated-at value. -/
theorem normalize_deterministic_with_timestamp (entries : List FPEntry)
    (n1 n2 : Nat)
    (h : ∀ e ∈ entries, e.updated_parsed.isSome ∨ e.published_parsed.isSome) :
    normalizeEntries entries n1 = normalizeEntries entries n2 := by
  simp only [normalizeEntries]
  induction entries with
  | nil => rfl
  | cons e rest ih =>
    have he := h e (by simp)
    have hrest := ih (fun x hx => h x (by simp [hx]))
    simp only [List.map_cons, hrest, List.cons.injEq, and_true]
    cases hu : e.updated_parsed with
    | some t => simp [parse_incident, parseTimestamp, hu]
    | none =>
      cases hp : e.published_parsed with
      | some t => simp [parse_incident, parseTimestamp, hu, hp]
      | none =>
        rw [hu, hp] at he
        simp at he

/-- C6 counterexample: an entry with neither timestamp field is stamped
with `datetime.now`, so normalizing the same payload at two different
instants yields different sequences. -/
theorem normalize_nondeterministic_without_timestamp :
    normalizeEntries [entryNoTime] 0 ≠ normalizeEntries [entryNoTime] 1 := by
  intro h
  have h1 : parse_incident entryNoTime 0 = parse_incident entryNoTime 1 := by
    simpa [normalizeEntries] using h
  have h2 := congrArg IncidentUpdate.updated_at h1
  simp [parse_incident, parseTimestamp, entryNoTime] at h2

/-- Witness for `normalize_deterministic_with_timestamp`. -/
theorem normalize_deterministic_with_timestamp_witness :
    normalizeEntries [entryA, entryB] 0 = normalizeEntries [entryA, entryB] 99 :=
  normalize_deterministic_with_timestamp [entryA, entryB] 0 99 (by decide)

/-- C7 (amended): `initial=True` is used only for the Monitor's very first
fetch attempt, successful or not.  When that first cycle fails before the
diff (network error, body-read failure, bad status, or malformed payload),
the next successful cycle runs the diff with `initial=False`; because the
SeenSnapshot is still empty, every current incident is nevertheless
notified (each as new), in feed order. -/
theorem initial_flag_first_attempt_only (r1 : FetchResult)
    (cb1 : IncidentUpdate → Bool) (n1 : Nat) (st1 : MonitorState)
    (h1 : checkFeed initialMonitorState r1 true cb1 n1 = .ok (st1, [], none))
    (entries : List FPEntry) (et lm : Option String) (n2 : Nat) :
    runCycles initialMonitorState true
      [{ fetch := r1, cbFails := cb1, now := n1 },
       { fetch := .response 200 et lm (some { bozo := false, entries := entries }),
         cbFails := noFail, now := n2 }] =
      { state := { etag := et, lastModified := lm,
                   seenIncidents := specNewSnapshot entries n2 },
        notifs := normalizeEntries entries n2,
        flags := [none, some false],
        crashed := false } := by
  have hseen : st1.seenIncidents = [] :=
    (checkFeed_no_diff_preserves_seen initialMonitorState r1 true cb1 n1 st1 [] h1).1
  have hsecond : checkFeed st1
      (.response 200 et lm (some { bozo := false, entries := entries }))
      false noFail n2 =
      .ok ({ etag := et, lastModified := lm,
             seenIncidents := specNewSnapshot entries n2 },
           normalizeEntries entries n2, some false) := by
    obtain ⟨e1, l1, s1⟩ := st1
    simp only [MonitorState.seenIncidents] at hseen
    subst hseen
    simp only [checkFeed]
    rw [processEntries_empty_seen]
    simp
  simp [runCycles, h1, hsecond]

/-- C7 counterexample: when the very first fetch fails with a network
error, the next (first successful) cycle runs the diff with
`initial=False` — the recorded flags are `[none, some false]`, never
`some true` — although it still notifies the one current incident. -/
theorem first_success_after_failure_not_initial :
    (runMonitor c7Inputs).flags = [none, some false]
    ∧ (some false : Option Bool) ≠ some true
    ∧ (runMonitor c7Inputs).notifs = [parse_incident entryA 1] := by
  refine ⟨rfl, by decide, rfl⟩

/-- Witness for `initial_flag_first_attempt_only` at a concrete input. -/
theorem initial_flag_first_attempt_only_witness :
    runCycles initialMonitorState true
      [{ fetch := .netError, cbFails := noFail, now := 0 },
       { fetch := .response 200 none none (some { bozo := false, entries := [entryA] }),
         cbFails := noFail, now := 1 }] =
      { state := { etag := none, lastModified := none,
                   seenIncidents := specNewSnapshot [entryA] 1 },
        notifs := normalizeEntries [entryA] 1,
        flags := [none, some false],
        crashed := false } :=
  initial_flag_first_attempt_only .netError noFail 0 initialMonitorState rfl
    [entryA] none none 1

/-- Witness for `snapshot_last_write_wins`: with a duplicated identity the
snapshot stores the later occurrence's key. -/
theorem snapshot_last_write_wins_witness :
    dictGet (specNewSnapshot [entryA, entryA7] 0) "a" = some "7"
    ∧ processEntries [] [entryA, entryA7] false noFail 0 =
        .ok (specNewSnapshot [entryA, entryA7] 0,
             specNotifications [] [entryA, entryA7] false 0) := by
  have h := snapshot_last_write_wins [] [entryA, entryA7] false 0
  exact ⟨(h.2.1 "a").trans (by rfl), h.1⟩

/-- Witness for `absent_identity_forgotten_and_renotified`: incident `a`
(seen with key 5) disappears for one cycle and returns with key 5 — it is
forgotten and then notified again as new. -/
theorem absent_identity_forgotten_and_renotified_witness :
    dictGet (specNewSnapshot [entryB] 0) (parse_incident entryA 0).id = none
    ∧ processEntries (specNewSnapshot [entryB] 0) [entryA] false noFail 0 =
        .ok ([((parse_incident entryA 0).id,
               toString (parse_incident entryA 0).updated_at)],
             [parse_incident entryA 0]) := by
  have h := absent_identity_forgotten_and_renotified [("a", "5")] [entryB]
    entryA 0 0 (by rfl) (by decide)
  exact ⟨h.2.1, h.2.2.1⟩
